import Mathlib

/-!
# Verification of the map-segmentation frontend (src/src/main.rs)

Shallow embedding of the Yew single-page client: the `App` component state,
its `update` reducer over the three messages (`AddNewImage`, `FinishRead`,
`FinishSend`), the base64 codec used for transport/display
(`base64::engine::general_purpose::STANDARD`), the serde deserialization of
the `FileDetails` response shape, and the send-future that converts an HTTP
outcome into a `FinishSend` message.

Side effects (starting a file read, dispatching the HTTP request, logging an
error) are modelled as an explicit effect list returned by `update`.
A Rust panic (an `unwrap`/`expect` on a failing value) is modelled as `none`
in an `Option` result: a panicked computation delivers no message and makes
no state transition.

Bytes are `Nat` values `< 256`; byte buffers are `List Nat`.
-/

namespace MapSeg

/-- The `FileDetails` struct of main.rs: file name, MIME type, raw bytes. -/
structure FileDetails where
  file_name : String
  file_type : String
  data : List Nat
deriving DecidableEq

/-- A selected browser file as seen by `Msg::AddNewImage`: its `name()` and
`raw_mime_type()`. The handle itself is opaque. -/
structure SelectedFile where
  name : String
  raw_mime_type : String
deriving DecidableEq

/-- The `App` component state. `readers` models the key set of the
`HashMap<String, FileReader>` of pending reads (the `FileReader` handles are
opaque). -/
structure App where
  server_url : String
  readers : List String
  satellite_image : Option FileDetails
  mask_image : Option FileDetails
deriving DecidableEq

/-- The component messages (`enum Msg`). `FinishSend` carries
`Result<FileDetails, String>`. -/
inductive Msg where
  | addNewImage (files : List SelectedFile)
  | finishRead (file_name file_type : String) (data : List Nat)
  | finishSend (resp : Except String FileDetails)

/-- One part of a multipart form (`reqwest::multipart::Part::bytes(data)
.file_name(file_name).mime_str(&file_type)`). -/
structure MultipartPart where
  part_name : String
  file_name : String
  mime : String
  bytes : List Nat
deriving DecidableEq

/-- The dispatched HTTP request built in the `FinishRead` send future. -/
structure HttpRequest where
  method : String
  url : String
  parts : List MultipartPart
deriving DecidableEq

/-- Observable side effects of `App::update`: starting an asynchronous file
read (`gloo::file::callbacks::read_as_bytes`), dispatching the HTTP request
(`ctx.link().send_future`), and logging an error (`log::error!`). -/
inductive Effect where
  | startRead (file_name file_type : String)
  | sendRequest (req : HttpRequest)
  | logError (msg : String)
deriving DecidableEq

/-- The standard base64 alphabet (RFC 4648), as used by
`base64::engine::general_purpose::STANDARD`. -/
def b64Alphabet : List Char :=
  ['A', 'B', 'C', 'D', 'E', 'F', 'G', 'H', 'I', 'J', 'K', 'L', 'M',
   'N', 'O', 'P', 'Q', 'R', 'S', 'T', 'U', 'V', 'W', 'X', 'Y', 'Z',
   'a', 'b', 'c', 'd', 'e', 'f', 'g', 'h', 'i', 'j', 'k', 'l', 'm',
   'n', 'o', 'p', 'q', 'r', 's', 't', 'u', 'v', 'w', 'x', 'y', 'z',
   '0', '1', '2', '3', '4', '5', '6', '7', '8', '9', '+', '/']

/-- The character encoding a 6-bit value. -/
def b64Char (v : Nat) : Char := b64Alphabet.getD v 'A'

/-- The 6-bit value of an alphabet character; `none` for any character
outside the alphabet (including the padding character). -/
def b64Val (c : Char) : Option Nat :=
  let i := b64Alphabet.indexOf c
  if i < 64 then some i else none

/-- `STANDARD.encode`: canonical padded base64 encoding of a byte buffer,
three bytes to four characters. -/
def b64Encode : List Nat → List Char
  | [] => []
  | [a] => [b64Char (a / 4), b64Char (a % 4 * 16), '=', '=']
  | [a, b] => [b64Char (a / 4), b64Char (a % 4 * 16 + b / 16), b64Char (b % 16 * 4), '=']
  | a :: b :: c :: rest =>
      b64Char (a / 4) :: b64Char (a % 4 * 16 + b / 16) ::
      b64Char (b % 16 * 4 + c / 64) :: b64Char (c % 64) :: b64Encode rest

/-- `STANDARD.decode`: canonical padded base64 decoding. Rejects characters
outside the alphabet, lengths that are not a multiple of four, padding
anywhere but the final block, and non-zero trailing bits (the `STANDARD`
engine requires canonical padding and disallows trailing bits). -/
def b64Decode : List Char → Option (List Nat)
  | [] => some []
  | c1 :: c2 :: c3 :: c4 :: rest =>
      match b64Val c1, b64Val c2 with
      | some v1, some v2 =>
        if c3 = '=' then
          if c4 = '=' ∧ rest = [] then
            if v2 % 16 = 0 then some [v1 * 4 + v2 / 16] else none
          else none
        else
          match b64Val c3 with
          | some v3 =>
            if c4 = '=' then
              if rest = [] then
                if v3 % 4 = 0 then
                  some [v1 * 4 + v2 / 16, v2 % 16 * 16 + v3 / 4]
                else none
              else none
            else
              match b64Val c4 with
              | some v4 =>
                match b64Decode rest with
                | some tl =>
                    some ((v1 * 4 + v2 / 16) :: (v2 % 16 * 16 + v3 / 4) ::
                          (v3 % 4 * 64 + v4) :: tl)
                | none => none
              | none => none
          | none => none
      | _, _ => none
  | _ => none

/-- `deserialize_file_data`: the custom serde deserializer for the `data`
field runs `STANDARD.decode(v.into_bytes()).unwrap()` on the string value of
the field. `none` models the panic of the `unwrap` on invalid base64. -/
def deserialize_file_data (v : String) : Option (List Nat) :=
  b64Decode v.toList

/-- A JSON value, abstracting the textual body already parsed. -/
inductive Json where
  | jnull
  | jbool (b : Bool)
  | jnum (n : Int)
  | jstr (s : String)
  | jarr (xs : List Json)
  | jobj (fields : List (String × Json))

/-- Field lookup returning a string value, as serde requires for the
`file_name`, `file_type` and `data` fields. -/
def getStr (j : Json) (k : String) : Option String :=
  match j with
  | Json.jobj fields =>
    match fields.lookup k with
    | some (Json.jstr s) => some s
    | _ => none
  | _ => none

/-- Outcome of deserializing a JSON body into `FileDetails`:
success, a serde field error (missing or mistyped field), or the panic of
the `unwrap` inside `deserialize_file_data` on invalid base64. -/
inductive DecodeResult where
  | ok (fd : FileDetails)
  | fieldError (e : String)
  | panicked

/-- After all object entries are consumed, serde reports any missing field;
otherwise the struct is built from the three collected values. -/
def finishVisit (n? t? : Option String) (d? : Option (List Nat)) : DecodeResult :=
  match n?, t?, d? with
  | some n, some t, some d => DecodeResult.ok ⟨n, t, d⟩
  | _, _, _ => DecodeResult.fieldError "missing field"

/-- The serde-derived map visitor for `FileDetails`, processing the object
entries in document order. For each entry: a known key first fails on a
duplicate (the derived code checks `is_some` before reading the value),
then deserializes the value — a non-string value is a type error, and the
`data` value runs `deserialize_file_data`, whose `unwrap` panics on invalid
base64 before any later entry or the missing-field check is reached.
Unknown keys are ignored (serde default). Only after all entries are
consumed does `finishVisit` report missing fields. -/
def visitFields : List (String × Json) → Option String → Option String →
    Option (List Nat) → DecodeResult
  | [], n?, t?, d? => finishVisit n? t? d?
  | (k, v) :: rest, n?, t?, d? =>
      if k = "file_name" then
        if n?.isSome then DecodeResult.fieldError "duplicate field file_name"
        else
          match v with
          | Json.jstr s => visitFields rest (some s) t? d?
          | _ => DecodeResult.fieldError "invalid type"
      else if k = "file_type" then
        if t?.isSome then DecodeResult.fieldError "duplicate field file_type"
        else
          match v with
          | Json.jstr s => visitFields rest n? (some s) d?
          | _ => DecodeResult.fieldError "invalid type"
      else if k = "data" then
        if d?.isSome then DecodeResult.fieldError "duplicate field data"
        else
          match v with
          | Json.jstr s =>
              (deserialize_file_data s).elim DecodeResult.panicked
                (fun bytes => visitFields rest n? t? (some bytes))
          | _ => DecodeResult.fieldError "invalid type"
      else visitFields rest n? t? d?

/-- Deserializing a JSON value into the `FileDetails` shape
(`mask.json::<FileDetails>()` on an already-parsed body): a non-object is a
type error; an object is visited entry by entry in document order by
`visitFields`. -/
def deserializeFileDetails (j : Json) : DecodeResult :=
  match j with
  | Json.jobj fields => visitFields fields none none none
  | _ => DecodeResult.fieldError "invalid type: not a map"

/-- The response body: either text that is not valid JSON (so
`.json()` fails with a parse error) or a parsed JSON value. -/
inductive Body where
  | malformed (e : String)
  | json (j : Json)

/-- Outcome of `client.post(..).multipart(..).send().await`: a
transport-level error, or a response with a status code and a body. -/
inductive HttpOutcome where
  | transportError (e : String)
  | response (status : Nat) (body : Body)

/-- Rendering of the `reqwest::Error` produced by `error_for_status` for a
status code in the error range (its `Display` includes the status). -/
def statusErrText (status : Nat) : String :=
  "HTTP status error (" ++ toString status ++ ")"

/-- The tail of the send future in `Msg::FinishRead`: converts the HTTP
outcome into the `Msg::FinishSend` message.
`resp.error_for_status()` errors exactly for status codes 400–599
(client or server error). Invalid base64 in a parsed body panics
(`deserialize_file_data`), modelled as `none`: no message is produced. -/
def sendFuture (o : HttpOutcome) : Option Msg :=
  match o with
  | HttpOutcome.transportError e =>
      some (Msg.finishSend (Except.error ("Error sending image to server: " ++ e)))
  | HttpOutcome.response status body =>
      if 400 ≤ status ∧ status ≤ 599 then
        some (Msg.finishSend (Except.error
          ("Error code in sending imaget to server: " ++ statusErrText status)))
      else
        match body with
        | Body.malformed e =>
            some (Msg.finishSend (Except.error ("Error in receiving json: " ++ e)))
        | Body.json j =>
            match deserializeFileDetails j with
            | DecodeResult.ok fd => some (Msg.finishSend (Except.ok fd))
            | DecodeResult.fieldError e =>
                some (Msg.finishSend (Except.error ("Error in receiving json: " ++ e)))
            | DecodeResult.panicked => none

/-- `HashMap::insert` on the key set of `readers`: adds the file name if
absent (re-inserting an existing name replaces its handle, leaving the key
set unchanged). -/
def insertReader (n : String) (l : List String) : List String :=
  if l.contains n then l else n :: l

/-- `App::update`. Returns the successor state and the list of observable
effects, in program order:
* `AddNewImage files`: clear `satellite_image` and `mask_image`, then start
  one asynchronous read per selected file, inserting each file name into
  `readers`;
* `FinishRead`: remove the `readers` entry, set `satellite_image` from the
  delivered name/MIME type/bytes, and dispatch the multipart POST to
  `{server_url}/segment` with the single part named `f[]`;
* `FinishSend (Ok mask)`: set `mask_image`;
* `FinishSend (Err e)`: log the error; the state is unchanged. -/
def update (s : App) (m : Msg) : App × List Effect :=
  match m with
  | Msg.addNewImage files =>
      ({ s with
          satellite_image := none,
          mask_image := none,
          readers := files.foldl (fun r f => insertReader f.name r) s.readers },
       files.map (fun f => Effect.startRead f.name f.raw_mime_type))
  | Msg.finishRead file_name file_type data =>
      ({ s with
          readers := s.readers.erase file_name,
          satellite_image := some ⟨file_name, file_type, data⟩ },
       [Effect.sendRequest
          { method := "POST",
            url := s.server_url ++ "/segment",
            parts := [{ part_name := "f[]", file_name := file_name,
                        mime := file_type, bytes := data }] }])
  | Msg.finishSend resp =>
      match resp with
      | Except.ok mask => ({ s with mask_image := some mask }, [])
      | Except.error e => (s, [Effect.logError e])

/-- `App::create`: empty reader map, both image slots empty. -/
def initApp (server_url : String) : App :=
  { server_url := server_url, readers := [], satellite_image := none,
    mask_image := none }

/-- Fold a sequence of delivered messages through `update` (the Yew
scheduler delivers messages one at a time to the single component). -/
def runMsgs (s : App) (ms : List Msg) : App :=
  ms.foldl (fun st m => (update st m).1) s

/-- `App::upload_files`: builds `Msg::AddNewImage` from the `FileList` of
the input element; an absent file list contributes no files, so the message
carries the empty list. -/
def upload_files (files : Option (List SelectedFile)) : Msg :=
  Msg.addNewImage (match files with | some fs => fs | none => [])

/-- The failure classes of the mask request together with the underlying
cause text the code formats into the message: a transport error, a status
code in 400–599 (the range `error_for_status` rejects), a body that is not
valid JSON, or a JSON body missing the expected shape (short of the base64
panic, which produces no message at all). -/
def failureCause (o : HttpOutcome) : Option String :=
  match o with
  | HttpOutcome.transportError e => some e
  | HttpOutcome.response status body =>
      if 400 ≤ status ∧ status ≤ 599 then some (statusErrText status)
      else
        match body with
        | Body.malformed e => some e
        | Body.json j =>
            match deserializeFileDetails j with
            | DecodeResult.fieldError e => some e
            | _ => none

/-- A well-shaped response body whose mask decodes from base64 `AAAA`. -/
def okJson300 : Json :=
  Json.jobj [("file_name", Json.jstr "m"), ("file_type", Json.jstr "image/png"),
             ("data", Json.jstr "AAAA")]

/-- A response body whose `data` field is not valid base64 and whose
`file_name` and `file_type` fields are missing: in document order the
`data` value is decoded — and its `unwrap` panics — before the
missing-field check is ever reached. -/
def badB64Json : Json :=
  Json.jobj [("data", Json.jstr "!!!!")]

/-- A well-shaped response body, used to exercise the successful decode. -/
def okJsonW : Json :=
  Json.jobj [("file_name", Json.jstr "m"), ("file_type", Json.jstr "t"),
             ("data", Json.jstr "AAAA")]

/-- Selected file `a.png`, used in the stale-completion run. -/
def fileA : SelectedFile := ⟨"a.png", "image/png"⟩

/-- Selected file `b.png`, used in the stale-completion run. -/
def fileB : SelectedFile := ⟨"b.png", "image/png"⟩

/-- A message sequence with out-of-order completion: file `a.png` is
selected and read, then file `b.png` is selected and read, and only then
does the mask request belonging to `a.png` complete. -/
def staleRun : List Msg :=
  [Msg.addNewImage [fileA],
   Msg.finishRead "a.png" "image/png" [1],
   Msg.addNewImage [fileB],
   Msg.finishRead "b.png" "image/png" [2],
   Msg.finishSend (Except.ok ⟨"a.png", "image/png", [9]⟩)]

/-! ## Helper lemmas -/

/-- On 6-bit values the alphabet lookup inverts the character encoding. -/
theorem b64Val_b64Char_fin : ∀ v : Fin 64, b64Val (b64Char v.val) = some v.val := by
  decide

/-- `b64Val` inverts `b64Char` on values below 64. -/
theorem b64Val_b64Char (v : Nat) (h : v < 64) : b64Val (b64Char v) = some v :=
  b64Val_b64Char_fin ⟨v, h⟩

/-- No alphabet character is the padding character. -/
theorem b64Char_ne_pad_fin : ∀ v : Fin 64, b64Char v.val ≠ '=' := by
  decide

/-- `b64Char` of a value below 64 is never the padding character. -/
theorem b64Char_ne_pad (v : Nat) (h : v < 64) : b64Char v ≠ '=' :=
  b64Char_ne_pad_fin ⟨v, h⟩

/-- Appending to a non-empty string yields a non-empty string. -/
theorem append_ne_empty (p q : String) (hp : p ≠ "") : p ++ q ≠ "" := by
  intro h
  apply hp
  apply String.ext
  have hd := congrArg String.data h
  rw [String.data_append] at hd
  exact (List.append_eq_nil.mp hd).1

/-- When the document-order visit succeeds, the decoded data bytes come
from the `data` accumulator if it was already filled (in which case no
further `data` entry may occur), and otherwise from the unique `data`
entry of the remaining fields, whose string value base64-decodes to them. -/
theorem visitFields_ok_data (fields : List (String × Json)) :
    ∀ (n? t? : Option String) (d? : Option (List Nat)) (fd : FileDetails),
    visitFields fields n? t? d? = DecodeResult.ok fd →
    (∃ b, d? = some b ∧ fd.data = b ∧ fields.lookup "data" = none) ∨
    (d? = none ∧ ∃ ds, fields.lookup "data" = some (Json.jstr ds) ∧
      deserialize_file_data ds = some fd.data) := by
  induction fields with
  | nil =>
      intro n? t? d? fd h
      match n?, t?, d? with
      | some n, some t, some d =>
          left
          refine ⟨d, rfl, ?_, rfl⟩
          have h2 : DecodeResult.ok (⟨n, t, d⟩ : FileDetails) = DecodeResult.ok fd := h
          cases h2
          rfl
      | none, _, _ => exact absurd h (by simp [visitFields, finishVisit])
      | some _, none, _ => exact absurd h (by simp [visitFields, finishVisit])
      | some _, some _, none => exact absurd h (by simp [visitFields, finishVisit])
  | cons kv rest ih =>
      obtain ⟨k, v⟩ := kv
      intro n? t? d? fd h
      by_cases hk1 : k = "file_name"
      · subst hk1
        cases n? with
        | some n0 => simp [visitFields] at h
        | none =>
            cases v with
            | jstr s =>
                have hrec : visitFields rest (some s) t? d? = DecodeResult.ok fd := by
                  simpa [visitFields] using h
                have := ih (some s) t? d? fd hrec
                simpa [List.lookup] using this
            | jnull => simp [visitFields] at h
            | jbool b => simp [visitFields] at h
            | jnum n => simp [visitFields] at h
            | jarr xs => simp [visitFields] at h
            | jobj fs => simp [visitFields] at h
      · by_cases hk2 : k = "file_type"
        · subst hk2
          cases t? with
          | some t0 => simp [visitFields, hk1] at h
          | none =>
              cases v with
              | jstr s =>
                  have hrec : visitFields rest n? (some s) d? = DecodeResult.ok fd := by
                    simpa [visitFields, hk1] using h
                  have := ih n? (some s) d? fd hrec
                  simpa [List.lookup] using this
              | jnull => simp [visitFields, hk1] at h
              | jbool b => simp [visitFields, hk1] at h
              | jnum n => simp [visitFields, hk1] at h
              | jarr xs => simp [visitFields, hk1] at h
              | jobj fs => simp [visitFields, hk1] at h
        · by_cases hk3 : k = "data"
          · subst hk3
            cases d? with
            | some b0 => simp [visitFields, hk1, hk2] at h
            | none =>
                cases v with
                | jstr s =>
                    cases hds : deserialize_file_data s with
                    | none => simp [visitFields, hk1, hk2, hds] at h
                    | some bytes =>
                        have hrec : visitFields rest n? t? (some bytes) =
                            DecodeResult.ok fd := by
                          simpa [visitFields, hk1, hk2, hds] using h
                        rcases ih n? t? (some bytes) fd hrec with
                          ⟨b, hb, hfd, _⟩ | ⟨hn, _⟩
                        · right
                          refine ⟨rfl, s, by simp [List.lookup], ?_⟩
                          rw [hds, hfd]
                          cases hb
                          rfl
                        · cases hn
                | jnull => simp [visitFields, hk1, hk2] at h
                | jbool b => simp [visitFields, hk1, hk2] at h
                | jnum n => simp [visitFields, hk1, hk2] at h
                | jarr xs => simp [visitFields, hk1, hk2] at h
                | jobj fs => simp [visitFields, hk1, hk2] at h
          · have hrec : visitFields rest n? t? d? = DecodeResult.ok fd := by
              simpa [visitFields, hk1, hk2, hk3] using h
            have := ih n? t? d? fd hrec
            have hne : (("data" : String) == k) = false := by
              refine beq_eq_false_iff_ne.mpr ?_
              intro hc
              exact hk3 hc.symm
            simpa [List.lookup, hne] using this

/-! ## Claim theorems -/

/-- C8: for every byte sequence (each element below 256), including the
empty sequence and arbitrary binary content, base64-encoding and then
base64-decoding returns the original bytes unchanged. -/
theorem b64_roundtrip : ∀ (l : List Nat), (∀ x ∈ l, x < 256) →
    b64Decode (b64Encode l) = some l
  | [], _ => rfl
  | [a], h => by
      have ha : a < 256 := h a (by simp)
      have h1 := b64Val_b64Char (a / 4) (by omega)
      have h2 := b64Val_b64Char (a % 4 * 16) (by omega)
      have e0 : a % 4 * 16 % 16 = 0 := by omega
      simp [b64Encode, b64Decode, h1, h2, e0]
      omega
  | [a, b], h => by
      have ha : a < 256 := h a (by simp)
      have hb : b < 256 := h b (by simp)
      have h1 := b64Val_b64Char (a / 4) (by omega)
      have h2 := b64Val_b64Char (a % 4 * 16 + b / 16) (by omega)
      have h3 := b64Val_b64Char (b % 16 * 4) (by omega)
      have hne : b64Char (b % 16 * 4) ≠ '=' := b64Char_ne_pad _ (by omega)
      have e0 : b % 16 * 4 % 4 = 0 := by omega
      simp [b64Encode, b64Decode, h1, h2, h3, hne, e0]
      omega
  | a :: b :: c :: rest, h => by
      have ha : a < 256 := h a (by simp)
      have hb : b < 256 := h b (by simp)
      have hc : c < 256 := h c (by simp)
      have ih := b64_roundtrip rest (fun x hx => h x (by simp [hx]))
      have h1 := b64Val_b64Char (a / 4) (by omega)
      have h2 := b64Val_b64Char (a % 4 * 16 + b / 16) (by omega)
      have h3 := b64Val_b64Char (b % 16 * 4 + c / 64) (by omega)
      have h4 := b64Val_b64Char (c % 64) (by omega)
      have hne3 : b64Char (b % 16 * 4 + c / 64) ≠ '=' := b64Char_ne_pad _ (by omega)
      have hne4 : b64Char (c % 64) ≠ '=' := b64Char_ne_pad _ (by omega)
      simp [b64Encode, b64Decode, h1, h2, h3, h4, hne3, hne4, ih]
      omega

/-- C8 witness: the round trip evaluated on the concrete buffer
`[0, 255, 10, 128]`, exercising both a full block and a padded block. -/
theorem b64_roundtrip_witness :
    (∀ x ∈ [0, 255, 10, 128], x < 256) ∧
    b64Decode (b64Encode [0, 255, 10, 128]) = some [0, 255, 10, 128] :=
  ⟨by decide, b64_roundtrip [0, 255, 10, 128] (by decide)⟩

/-- C1 (amended): for every mask-request failure that produces a message —
a transport error, a status code in 400–599, or a response body whose
serde pass fails with an error (not valid JSON, or the document-order
field processing reports a duplicate, mistyped or missing field without
first reaching an invalid-base64 `data` value, which would panic instead) —
the update surfaces a non-empty human-readable message that retains the
underlying cause text, and the state (in particular `satellite_image`) is
unchanged, the message being logged. -/
theorem mask_failure_surfaces_message (o : HttpOutcome) (cause : String)
    (hc : failureCause o = some cause) :
    ∃ e : String, sendFuture o = some (Msg.finishSend (Except.error e)) ∧
      e ≠ "" ∧ (∃ p : String, e = p ++ cause) ∧
      ∀ s : App, update s (Msg.finishSend (Except.error e)) = (s, [Effect.logError e]) := by
  cases o with
  | transportError e =>
      simp only [failureCause, Option.some.injEq] at hc
      subst hc
      exact ⟨"Error sending image to server: " ++ e, rfl,
        append_ne_empty _ _ (by decide), ⟨_, rfl⟩, fun s => rfl⟩
  | response status body =>
      by_cases hst : 400 ≤ status ∧ status ≤ 599
      · simp only [failureCause, if_pos hst, Option.some.injEq] at hc
        subst hc
        refine ⟨"Error code in sending imaget to server: " ++ statusErrText status,
          ?_, append_ne_empty _ _ (by decide), ⟨_, rfl⟩, fun s => rfl⟩
        simp only [sendFuture, if_pos hst]
      · cases body with
        | malformed e =>
            simp only [failureCause, if_neg hst, Option.some.injEq] at hc
            subst hc
            refine ⟨"Error in receiving json: " ++ e, ?_,
              append_ne_empty _ _ (by decide), ⟨_, rfl⟩, fun s => rfl⟩
            simp only [sendFuture, if_neg hst]
        | json j =>
            simp only [failureCause, if_neg hst] at hc
            cases hd : deserializeFileDetails j with
            | ok fd => rw [hd] at hc; simp at hc
            | panicked => rw [hd] at hc; simp at hc
            | fieldError e =>
                rw [hd] at hc
                simp only [Option.some.injEq] at hc
                subst hc
                refine ⟨"Error in receiving json: " ++ e, ?_,
                  append_ne_empty _ _ (by decide), ⟨_, rfl⟩, fun s => rfl⟩
                simp only [sendFuture, if_neg hst, hd]

/-- C1 witness: the mocked HTTP 500 service; the message retains the status
error text and the state, hence `satellite_image`, is untouched. -/
theorem mask_failure_witness :
    failureCause (HttpOutcome.response 500 (Body.malformed "boom")) =
      some (statusErrText 500) ∧
    ∃ e : String,
      sendFuture (HttpOutcome.response 500 (Body.malformed "boom")) =
        some (Msg.finishSend (Except.error e)) ∧ e ≠ "" ∧
      (∃ p : String, e = p ++ statusErrText 500) ∧
      ∀ s : App, update s (Msg.finishSend (Except.error e)) = (s, [Effect.logError e]) :=
  ⟨rfl, mask_failure_surfaces_message _ _ rfl⟩

/-- C1 counterexample: a non-2xx status (300) with a well-shaped body is
treated as success — `error_for_status` only rejects 400–599, so the send
future yields `Ok` (the mask is set) rather than a failure message. -/
theorem non2xx_can_set_mask :
    sendFuture (HttpOutcome.response 300 (Body.json okJson300)) =
      some (Msg.finishSend (Except.ok ⟨"m", "image/png", [0, 0, 0]⟩)) := rfl

/-- C2: evaluation of the stale-completion run. After file `b.png` is
selected and read, the pending mask completion belonging to `a.png` is
still applied: the final state shows the `b.png` satellite image next to
the stale `a.png` mask. The code has no sequence-number guarding. -/
theorem stale_mask_overwrites_newer :
    (runMsgs (initApp "http://server") staleRun).satellite_image =
      some ⟨"b.png", "image/png", [2]⟩ ∧
    (runMsgs (initApp "http://server") staleRun).mask_image =
      some ⟨"a.png", "image/png", [9]⟩ :=
  ⟨rfl, rfl⟩

/-- C3 (amended): for every 2xx response whose body fails the serde pass
with an error — the body is not valid JSON, or the document-order field
processing reports a duplicate, mistyped or missing field without first
reaching an invalid-base64 `data` value — the send future yields a
non-empty failure message. When an invalid-base64 `data` value is reached
first, the decode panics and yields no message. -/
theorem malformed_2xx_body_yields_error (status : Nat) (body : Body)
    (h2 : 200 ≤ status ∧ status ≤ 299)
    (hbad : (∃ e, body = Body.malformed e) ∨
            (∃ j e, body = Body.json j ∧
              deserializeFileDetails j = DecodeResult.fieldError e)) :
    ∃ msg : String, sendFuture (HttpOutcome.response status body) =
      some (Msg.finishSend (Except.error msg)) ∧ msg ≠ "" := by
  have hst : ¬(400 ≤ status ∧ status ≤ 599) := by omega
  rcases hbad with ⟨e, rfl⟩ | ⟨j, e, rfl, hd⟩
  · refine ⟨"Error in receiving json: " ++ e, ?_, append_ne_empty _ _ (by decide)⟩
    simp only [sendFuture, if_neg hst]
  · refine ⟨"Error in receiving json: " ++ e, ?_, append_ne_empty _ _ (by decide)⟩
    simp only [sendFuture, if_neg hst, hd]

/-- C3 witness: a 200 response whose body is not valid JSON yields a
failure message. -/
theorem malformed_2xx_body_witness :
    (200 ≤ 200 ∧ 200 ≤ 299) ∧
    ∃ msg : String,
      sendFuture (HttpOutcome.response 200 (Body.malformed "expected value")) =
        some (Msg.finishSend (Except.error msg)) ∧ msg ≠ "" :=
  ⟨by decide,
   malformed_2xx_body_yields_error 200 (Body.malformed "expected value")
     (by decide) (Or.inl ⟨_, rfl⟩)⟩

/-- C3 counterexample: a 200 response whose body is `{"data": "!!!!"}` —
the `data` field invalid base64, `file_name` and `file_type` missing —
panics in the decode `unwrap` when the `data` value is deserialized, before
the missing-field check: no message, no state transition, no `Failed`. -/
theorem invalid_base64_panics :
    sendFuture (HttpOutcome.response 200 (Body.json badB64Json)) = none := rfl

/-- C4 (amended): a `FileDetails` built from a completed read carries
exactly the delivered bytes, and one built from a successfully parsed
response carries exactly the base64 decoding of its `data` field; the data
is non-empty exactly when those source bytes are — emptiness is not
rejected. -/
theorem filedetails_data_exact :
    (∀ (s : App) (n t : String) (d : List Nat),
       (update s (Msg.finishRead n t d)).1.satellite_image = some ⟨n, t, d⟩) ∧
    (∀ (j : Json) (fd : FileDetails),
       deserializeFileDetails j = DecodeResult.ok fd →
       ∃ ds : String, getStr j "data" = some ds ∧
         deserialize_file_data ds = some fd.data) := by
  constructor
  · intro s n t d
    rfl
  · intro j fd hd
    cases j with
    | jobj fields =>
        simp only [deserializeFileDetails] at hd
        rcases visitFields_ok_data fields none none none fd hd with
          ⟨b, hb, _, _⟩ | ⟨_, ds, hlk, hds⟩
        · cases hb
        · exact ⟨ds, by simp [getStr, hlk], hds⟩
    | jnull => exact absurd hd (by simp [deserializeFileDetails])
    | jbool b => exact absurd hd (by simp [deserializeFileDetails])
    | jnum n => exact absurd hd (by simp [deserializeFileDetails])
    | jstr s => exact absurd hd (by simp [deserializeFileDetails])
    | jarr xs => exact absurd hd (by simp [deserializeFileDetails])

/-- C4 witness: the decode of the well-shaped body with `data = "AAAA"`
carries exactly the three zero bytes. -/
theorem filedetails_data_exact_witness :
    deserializeFileDetails okJsonW = DecodeResult.ok ⟨"m", "t", [0, 0, 0]⟩ ∧
    ∃ ds : String, getStr okJsonW "data" = some ds ∧
      deserialize_file_data ds = some ([0, 0, 0] : List Nat) :=
  ⟨rfl, filedetails_data_exact.2 okJsonW ⟨"m", "t", [0, 0, 0]⟩ rfl⟩

/-- C4 counterexample: a completed read of an empty file constructs a
`FileDetails` with empty `data` — the non-emptiness invariant is not
enforced by the code. -/
theorem empty_read_constructs_empty_details :
    (update (initApp "http://server")
        (Msg.finishRead "empty.png" "image/png" [])).1.satellite_image =
      some ⟨"empty.png", "image/png", []⟩ := rfl

/-- C5: a successful read completing with name `n`, MIME type `t` and bytes
`d` sets `satellite_image` to exactly `⟨n, t, d⟩` and removes the pending
read entry keyed by `n`; the other state fields are untouched. -/
theorem finishRead_sets_satellite (s : App) (n t : String) (d : List Nat) :
    (update s (Msg.finishRead n t d)).1.satellite_image = some ⟨n, t, d⟩ ∧
    (update s (Msg.finishRead n t d)).1.readers = s.readers.erase n ∧
    (update s (Msg.finishRead n t d)).1.mask_image = s.mask_image ∧
    (update s (Msg.finishRead n t d)).1.server_url = s.server_url :=
  ⟨rfl, rfl, rfl, rfl⟩

/-- C6: every file-selection message clears both `satellite_image` and
`mask_image` in the same atomic update that merely starts the reads (the
effects are exactly the read starts; no read has completed yet). -/
theorem addNewImage_clears_slots (s : App) (files : List SelectedFile) :
    (update s (Msg.addNewImage files)).1.satellite_image = none ∧
    (update s (Msg.addNewImage files)).1.mask_image = none ∧
    (update s (Msg.addNewImage files)).2 =
      files.map (fun f => Effect.startRead f.name f.raw_mime_type) :=
  ⟨rfl, rfl, rfl⟩

/-- C7: the completed read of `(n, t, d)` dispatches exactly one HTTP
request: a POST to `{server_url}/segment` whose multipart body has the
single part named `f[]` carrying the raw bytes `d`, filename `n` and
content type `t`. -/
theorem finishRead_dispatches_post (s : App) (n t : String) (d : List Nat) :
    (update s (Msg.finishRead n t d)).2 =
      [Effect.sendRequest
        { method := "POST", url := s.server_url ++ "/segment",
          parts := [{ part_name := "f[]", file_name := n, mime := t,
                      bytes := d }] }] := rfl

/-- C9: a successful send completion sets `mask_image` unconditionally —
no check of `satellite_image` or of the current selection — and the state
with `mask_image = some` and `satellite_image = none` is reachable (stale
send completing after a new selection cleared both slots). -/
theorem finishSend_ok_unconditional :
    (∀ (s : App) (fd : FileDetails),
       (update s (Msg.finishSend (Except.ok fd))).1.mask_image = some fd ∧
       (update s (Msg.finishSend (Except.ok fd))).1.satellite_image =
         s.satellite_image) ∧
    ((runMsgs (initApp "http://server")
        [Msg.addNewImage [⟨"a.png", "image/png"⟩],
         Msg.finishRead "a.png" "image/png" [1],
         Msg.addNewImage [],
         Msg.finishSend (Except.ok ⟨"a.png", "image/png", [9]⟩)]).satellite_image =
       none ∧
     (runMsgs (initApp "http://server")
        [Msg.addNewImage [⟨"a.png", "image/png"⟩],
         Msg.finishRead "a.png" "image/png" [1],
         Msg.addNewImage [],
         Msg.finishSend (Except.ok ⟨"a.png", "image/png", [9]⟩)]).mask_image =
       some ⟨"a.png", "image/png", [9]⟩) :=
  ⟨fun _ _ => ⟨rfl, rfl⟩, rfl, rfl⟩

/-- C10: a change event without files dispatches `AddNewImage []`, which
clears both image slots, starts no reads and leaves the pending-read map
unchanged — selecting zero files wipes the current display. -/
theorem empty_selection_clears (s : App) :
    upload_files none = Msg.addNewImage [] ∧
    (update s (Msg.addNewImage [])).1.satellite_image = none ∧
    (update s (Msg.addNewImage [])).1.mask_image = none ∧
    (update s (Msg.addNewImage [])).1.readers = s.readers ∧
    (update s (Msg.addNewImage [])).2 = [] :=
  ⟨rfl, rfl, rfl, rfl, rfl⟩

end MapSeg
